import Mathlib

/-!
Verification development for the multi-source ingestion pipeline
(YouTube / Anthropic / OpenAI / Substack content aggregator).

The Python modules under `app/ingest/` are shallowly embedded here:

* machine text is modelled as `String` / `List Char`;
* UTC instants are modelled as `Int` seconds since the Unix epoch
  (`datetime` objects in the source are always UTC-aware, so comparison
  and subtraction agree with the integer model; sub-second precision is
  not exercised by any code path modelled here);
* the filesystem cache directory is modelled as an association list
  from file name to file content;
* `hashlib.md5(url).hexdigest()` is an opaque collaborator and is passed
  in as an arbitrary function `md5hex : String → String`;
* fallible operations return `Except`/`Option` where Python raises or
  returns `None`.
-/

namespace Ingest

/-! ### Python string primitives

`pyWs` is Python's `\s` character class restricted to ASCII (all inputs
handled by the scrapers are ASCII at the positions where whitespace
matters).  `pyStrip` is `str.strip()`: whitespace removed from both ends. -/

def pyWs (c : Char) : Bool :=
  c == ' ' || c == '\t' || c == '\n' || c == '\r' || c == '\x0b' || c == '\x0c'

/-- Removal of a trailing whitespace run, by structural recursion
(equivalent to reversing, dropping the leading run, and reversing back). -/
def dropTrailingWs : List Char → List Char
  | [] => []
  | c :: rest =>
    match dropTrailingWs rest with
    | [] => if pyWs c then [] else [c]
    | d :: tl => c :: d :: tl

/-- Python `str.strip()` on a character list. -/
def pyStrip (l : List Char) : List Char :=
  dropTrailingWs (l.dropWhile pyWs)

/-- Consume a literal character sequence from the head of the input,
returning the remainder on success (`None` when the input does not begin
with the literal). -/
def dropLit : List Char → List Char → Option (List Char)
  | [], s => some s
  | c :: ps, d :: s => if c == d then dropLit ps s else none
  | _ :: _, [] => none

/-! ### ContentCache (`app/ingest/scrapers/cache.py`) -/

/-- `is_cache_enabled`: `os.environ.get("USE_CACHE", "1") == "1"`.
The argument is the value of the `USE_CACHE` environment variable
(`none` when unset). -/
def is_cache_enabled (useCacheEnv : Option String) : Bool :=
  useCacheEnv.getD "1" == "1"

/-- `get_cache_key(url, suffix)`: md5-hash the URL; append `"." + suffix`
only when the suffix is non-empty (Python truthiness of `suffix`). -/
def get_cache_key (md5hex : String → String) (url : String) (suffix : String) : String :=
  let key := md5hex url
  if suffix ≠ "" then key ++ "." ++ suffix else key

/-- Read a file of the cache directory, modelled as an association list
keyed by file name. -/
def storeLookup (store : List (String × String)) (k : String) : Option String :=
  (store.find? (fun p => p.1 == k)).map Prod.snd

/-- Whole-file write: replaces any previous file of the same name. -/
def storeWrite (store : List (String × String)) (k v : String) : List (String × String) :=
  (k, v) :: store.filter (fun p => !(p.1 == k))

/-- `get_cached(url, suffix)`: `None` when caching is disabled, otherwise
the content of the cache file named `get_cache_key(url, suffix)`. -/
def get_cached (md5hex : String → String) (env : Option String)
    (store : List (String × String)) (url : String) (suffix : String) : Option String :=
  if is_cache_enabled env then storeLookup store (get_cache_key md5hex url suffix)
  else none

/-- `set_cached(url, content, suffix)`: a no-op when caching is disabled,
otherwise writes the cache file named `get_cache_key(url, suffix)`. -/
def set_cached (md5hex : String → String) (env : Option String)
    (store : List (String × String)) (url content suffix : String) : List (String × String) :=
  if is_cache_enabled env then storeWrite store (get_cache_key md5hex url suffix) content
  else store

/-! ### Claims about the cache -/

/-- Claim C4: for every key `(url, suffix)` and every string `v`, when
caching is enabled `set_cached url v suffix` followed by
`get_cached url suffix` returns exactly `v`; when caching is disabled
`get_cached` always returns `none` and `set_cached` leaves the store
unchanged. -/
theorem cache_round_trip (md5hex : String → String) (env : Option String)
    (store : List (String × String)) (url v suffix : String) :
    (is_cache_enabled env = true →
      get_cached md5hex env (set_cached md5hex env store url v suffix) url suffix = some v)
    ∧ (is_cache_enabled env = false →
      get_cached md5hex env store url suffix = none
      ∧ set_cached md5hex env store url v suffix = store) := by
  constructor
  · intro h
    simp [get_cached, set_cached, h, storeWrite, storeLookup]
  · intro h
    simp [get_cached, set_cached, h]

/-- Witness for C4 at concrete inputs: enabled round-trip with the
environment variable unset, and disabled behaviour with `USE_CACHE=0`. -/
theorem cache_round_trip_witness :
    get_cached (fun s => s) none
      (set_cached (fun s => s) none [] "http://u" "payload" "xml") "http://u" "xml"
      = some "payload"
    ∧ get_cached (fun s => s) (some "0") [("k", "v")] "http://u" "xml" = none := by
  constructor
  · exact (cache_round_trip (fun s => s) none [] "http://u" "payload" "xml").1 (by decide)
  · exact ((cache_round_trip (fun s => s) (some "0") [("k", "v")] "http://u" "v" "xml").2
      (by decide)).1

/-- Counterexample to claim C5 as stated: with an empty content-kind the
produced key is just `hash(url)`, not `hash(url) ++ "." ++ kind`. -/
theorem cache_key_empty_kind_counterexample :
    get_cache_key (fun s => s) "u" "" ≠ (fun s : String => s) "u" ++ "." ++ "" := by
  decide

/-- Claim C5 (amended): for every non-empty kind the cache key equals
`hash(url) ++ "." ++ kind`, for the empty kind it is `hash(url)` alone;
the derivation is deterministic, and for a fixed URL two distinct kinds
never produce the same key. -/
theorem cache_key_derivation (md5hex : String → String) (url k k1 k2 : String)
    (hk : k ≠ "") (h12 : k1 ≠ k2) :
    get_cache_key md5hex url k = md5hex url ++ "." ++ k
    ∧ get_cache_key md5hex url "" = md5hex url
    ∧ get_cache_key md5hex url k1 ≠ get_cache_key md5hex url k2 := by
  have hne : ∀ kk : String, kk ≠ "" → get_cache_key md5hex url kk = md5hex url ++ "." ++ kk := by
    intro kk hkk
    simp [get_cache_key, hkk]
  have hemp : get_cache_key md5hex url "" = md5hex url := by
    simp [get_cache_key]
  refine ⟨hne k hk, hemp, ?_⟩
  intro heq
  by_cases e1 : k1 = ""
  · by_cases e2 : k2 = ""
    · exact h12 (e1.trans e2.symm)
    · rw [e1, hemp, hne k2 e2] at heq
      have hlen := congrArg (fun s => s.data.length) heq
      simp [String.data_append] at hlen
  · by_cases e2 : k2 = ""
    · rw [e2, hemp, hne k1 e1] at heq
      have hlen := congrArg (fun s => s.data.length) heq
      simp [String.data_append] at hlen
    · rw [hne k1 e1, hne k2 e2] at heq
      have hdata := congrArg String.data heq
      simp only [String.data_append, List.append_assoc] at hdata
      have h1 := List.append_cancel_left hdata
      have h2 := List.append_cancel_left h1
      exact h12 (String.ext h2)

/-- Witness for the amended C5 at concrete inputs: kind `"xml"` is
non-empty and differs from `"html"`. -/
theorem cache_key_derivation_witness :
    get_cache_key (fun s => s) "u" "xml" = (fun s : String => s) "u" ++ "." ++ "xml"
    ∧ get_cache_key (fun s => s) "u" "" = (fun s : String => s) "u"
    ∧ get_cache_key (fun s => s) "u" "xml" ≠ get_cache_key (fun s => s) "u" "html" := by
  exact cache_key_derivation (fun s => s) "u" "xml" "xml" "html" (by decide) (by decide)

/-- Claim C10: caching is enabled iff `USE_CACHE` is unset or equals the
exact string `"1"`; `"true"`, `"yes"`, `"TRUE"` and `"01"` all disable it. -/
theorem cache_flag_string_exact :
    is_cache_enabled none = true
    ∧ (∀ v : String, is_cache_enabled (some v) = (v == "1"))
    ∧ is_cache_enabled (some "true") = false
    ∧ is_cache_enabled (some "yes") = false
    ∧ is_cache_enabled (some "TRUE") = false
    ∧ is_cache_enabled (some "01") = false := by
  refine ⟨by decide, ?_, by decide, by decide, by decide, by decide⟩
  intro v
  rfl

/-! ### Feed entries (`feedparser` collaborator interface)

`feedparser.parse` is an opaque collaborator: it yields a `bozo` flag and
a list of entries.  An entry's optional attributes (`getattr` /
`entry.get` fallbacks in the source) are modelled as `Option` fields;
`published_parsed` is the entry's structured publish time converted to
epoch seconds UTC (the source converts the `struct_time` to an aware UTC
`datetime`); a category tag is modelled by its `term` string; `content`
is the list of `value` strings of `entry.content` when that attribute
exists. -/

structure FeedEntry where
  title : String
  link : String
  entryId : Option String
  summary : Option String
  description : Option String
  published_parsed : Option Int
  tags : List String
  content : Option (List String)
  author : Option String
deriving Repr, DecidableEq

structure Feed where
  bozo : Bool
  entries : List FeedEntry
deriving Repr, DecidableEq

/-! ### YouTube scraper (`app/ingest/scrapers/youtube.py`) -/

structure ChannelVideo where
  title : String
  url : String
  video_id : String
  published_at : Int
  description : String
  channel_id : String
  transcript : Option String
deriving Repr, DecidableEq

/-- Character class `[a-zA-Z0-9_-]` of the video-id pattern. -/
def vidChar (c : Char) : Bool :=
  ('a' ≤ c && c ≤ 'z') || ('A' ≤ c && c ≤ 'Z') || ('0' ≤ c && c ≤ '9') || c == '_' || c == '-'

/-- Group `([a-zA-Z0-9_-]{11})`: exactly eleven id characters taken from
the head of the input. -/
def take11 (s : List Char) : Option (List Char) :=
  let t := s.take 11
  if t.length == 11 && t.all vidChar then some t else none

/-- One attempt of the pattern
`(?:youtube\.com/watch\?v=|youtu\.be/|youtube\.com/embed/)([a-zA-Z0-9_-]{11})`
anchored at the head of the input, alternatives tried in source order. -/
def matchVideoIdAt (s : List Char) : Option (List Char) :=
  match (dropLit "youtube.com/watch?v=".data s).bind take11 with
  | some v => some v
  | none =>
    match (dropLit "youtu.be/".data s).bind take11 with
    | some v => some v
    | none => (dropLit "youtube.com/embed/".data s).bind take11

/-- `re.search` over the video-id pattern: scan start positions left to
right, return the first group match. -/
def searchVideoId : List Char → Option (List Char)
  | [] => none
  | c :: rest =>
    match matchVideoIdAt (c :: rest) with
    | some v => some v
    | none => searchVideoId rest

/-- `YouTubeScraper.extract_video_id`. -/
def extract_video_id (url : String) : Option String :=
  (searchVideoId url.data).map String.mk

/-- The body of the entry loop of `YouTubeScraper.fetch_channel_videos`:
entries without a parsed publish date are skipped, entries older than the
cutoff are skipped, entries whose link yields no video id are skipped. -/
def youtubeEntryToVideo (channel_id : String) (cutoff_time : Int)
    (entry : FeedEntry) : Option ChannelVideo :=
  match entry.published_parsed with
  | none => none
  | some published_time =>
    if published_time < cutoff_time then none
    else
      (extract_video_id entry.link).map fun vid =>
        { title := entry.title
          url := entry.link
          video_id := vid
          published_at := published_time
          description := entry.description.getD ""
          channel_id := channel_id
          transcript := none }

/-- `YouTubeScraper.fetch_channel_videos`, from the parsed feed onward:
raises on a bozo feed, otherwise computes `cutoff_time = now - hours_back`
once and filters the entries. -/
def fetch_channel_videos (channel_id : String) (feed : Feed)
    (now : Int) (hours_back : Int) : Except String (List ChannelVideo) :=
  if feed.bozo then .error "Failed to parse RSS feed"
  else
    let cutoff_time := now - hours_back * 3600
    .ok (feed.entries.filterMap (youtubeEntryToVideo channel_id cutoff_time))

/-! ### Substack scraper (`app/ingest/scrapers/substack.py`) -/

structure SubstackArticle where
  title : String
  url : String
  guid : String
  published_at : Int
  description : String
  content : String
  author : String
deriving Repr, DecidableEq

/-- The body of the entry loop of `SubstackScraper.fetch_articles`:
undated entries are skipped, entries older than the cutoff are skipped;
`content` comes from `entry.content[0].value` when the attribute exists,
falling back to `entry.summary`. -/
def substackEntryToArticle (cutoff_time : Int) (entry : FeedEntry) : Option SubstackArticle :=
  match entry.published_parsed with
  | none => none
  | some published_time =>
    if published_time < cutoff_time then none
    else
      let content :=
        match entry.content with
        | some values => values.headD ""
        | none => entry.summary.getD ""
      some
        { title := entry.title
          url := entry.link
          guid := entry.entryId.getD entry.link
          published_at := published_time
          description := entry.description.getD ""
          content := content
          author := entry.author.getD "" }

/-- `SubstackScraper.fetch_articles`, from the parsed feed onward. -/
def substack_fetch_articles (feed : Feed) (now : Int) (hours_back : Int) :
    Except String (List SubstackArticle) :=
  if feed.bozo then .error "Failed to parse RSS feed"
  else
    let cutoff_time := now - hours_back * 3600
    .ok (feed.entries.filterMap (substackEntryToArticle cutoff_time))

/-! ### Date resolver (`OpenAINewsScraper._parse_date`)

`datetime.strptime` is embedded directive by directive following
CPython's `_strptime` regexes (directives are compiled with
`re.IGNORECASE`; a whitespace character of the format matches one or
more whitespace characters; alternatives are tried in CPython's order
with backtracking).  A successfully matched field set is then subjected
to `datetime`'s own range validation, and converted to epoch seconds via
the standard civil-calendar conversion. -/

structure TimeFields where
  year : Int
  month : Int
  day : Int
  hour : Int
  minute : Int
  second : Int
deriving Repr, DecidableEq

/-- Field defaults of `strptime`: year 1900, January 1st, midnight. -/
def strptimeDefaults : TimeFields :=
  { year := 1900, month := 1, day := 1, hour := 0, minute := 0, second := 0 }

def isLeap (y : Int) : Bool :=
  (y % 4 == 0 && y % 100 != 0) || y % 400 == 0

def daysInMonth (y m : Int) : Int :=
  if m == 2 then (if isLeap y then 29 else 28)
  else if m == 4 || m == 6 || m == 9 || m == 11 then 30
  else 31

/-- Days between a civil date and 1970-01-01 (Gregorian, proleptic). -/
def daysFromCivil (y m d : Int) : Int :=
  let y1 := if m ≤ 2 then y - 1 else y
  let era := (if 0 ≤ y1 then y1 else y1 - 399) / 400
  let yoe := y1 - era * 400
  let mp := if 2 < m then m - 3 else m + 9
  let doy := (153 * mp + 2) / 5 + d - 1
  let doe := yoe * 365 + yoe / 4 - yoe / 100 + doy
  era * 146097 + doe - 719468

/-- Epoch seconds of a UTC civil timestamp. -/
def mkUTC (y m d h mi s : Int) : Int :=
  daysFromCivil y m d * 86400 + h * 3600 + mi * 60 + s

/-- Validation performed by the `datetime` constructor (regex-level
bounds are re-checked; the day bound depends on month and leap year). -/
def validDatetime (tf : TimeFields) : Bool :=
  1 ≤ tf.year && tf.year ≤ 9999 && 1 ≤ tf.month && tf.month ≤ 12
    && 1 ≤ tf.day && tf.day ≤ daysInMonth tf.year tf.month
    && 0 ≤ tf.hour && tf.hour ≤ 23 && 0 ≤ tf.minute && tf.minute ≤ 59
    && 0 ≤ tf.second && tf.second ≤ 59

/-- Format directives used by the source's format list. -/
inductive Dir where
  | lit (c : Char)
  | ws
  | year4
  | month
  | day
  | hour
  | minute
  | second
  | frac
  | monthFull
  | monthAbbr
deriving Repr, DecidableEq

/-- Translation of a `strptime` format string into directives. -/
def parseFormat : List Char → List Dir
  | [] => []
  | '%' :: 'Y' :: rest => .year4 :: parseFormat rest
  | '%' :: 'm' :: rest => .month :: parseFormat rest
  | '%' :: 'd' :: rest => .day :: parseFormat rest
  | '%' :: 'H' :: rest => .hour :: parseFormat rest
  | '%' :: 'M' :: rest => .minute :: parseFormat rest
  | '%' :: 'S' :: rest => .second :: parseFormat rest
  | '%' :: 'f' :: rest => .frac :: parseFormat rest
  | '%' :: 'B' :: rest => .monthFull :: parseFormat rest
  | '%' :: 'b' :: rest => .monthAbbr :: parseFormat rest
  | c :: rest => if pyWs c then .ws :: parseFormat rest else .lit c :: parseFormat rest

def digitVal (c : Char) : Int :=
  (c.toNat : Int) - ('0'.toNat : Int)

/-- Two-digit numeric alternative with per-position character classes. -/
def matchNum2 (ok1 ok2 : Char → Bool) (s : List Char) : Option (Int × List Char) :=
  match s with
  | a :: b :: rest => if ok1 a && ok2 b then some (digitVal a * 10 + digitVal b, rest) else none
  | _ => none

/-- One-digit numeric alternative. -/
def matchNum1 (ok : Char → Bool) (s : List Char) : Option (Int × List Char) :=
  match s with
  | a :: rest => if ok a then some (digitVal a, rest) else none
  | _ => none

/-- `\d\d\d\d` (the `%Y` regex). -/
def matchYear4 (s : List Char) : Option (Int × List Char) :=
  match s with
  | a :: b :: c :: d :: rest =>
    if a.isDigit && b.isDigit && c.isDigit && d.isDigit then
      some (digitVal a * 1000 + digitVal b * 100 + digitVal c * 10 + digitVal d, rest)
    else none
  | _ => none

/-- Case-insensitive literal consumption (`re.IGNORECASE`). -/
def dropLitCI : List Char → List Char → Option (List Char)
  | [], s => some s
  | c :: ps, d :: s => if c.toLower == d.toLower then dropLitCI ps s else none
  | _ :: _, [] => none

def monthNamesFull : List (String × Int) :=
  [("January", 1), ("February", 2), ("March", 3), ("April", 4), ("May", 5), ("June", 6),
   ("July", 7), ("August", 8), ("September", 9), ("October", 10), ("November", 11),
   ("December", 12)]

def monthNamesAbbr : List (String × Int) :=
  [("Jan", 1), ("Feb", 2), ("Mar", 3), ("Apr", 4), ("May", 5), ("Jun", 6), ("Jul", 7),
   ("Aug", 8), ("Sep", 9), ("Oct", 10), ("Nov", 11), ("Dec", 12)]

/-- Month-name alternation (no name is a prefix of another within either
list, so at most one alternative matches at a given position). -/
def matchName (names : List (String × Int)) (s : List Char) : Option (Int × List Char) :=
  match names with
  | [] => none
  | (nm, v) :: rest =>
    match dropLitCI nm.data s with
    | some r => some (v, r)
    | none => matchName rest s

def optToList : Option (TimeFields × List Char) → List (TimeFields × List Char)
  | some x => [x]
  | none => []

def withMonth (tf : TimeFields) (p : Int × List Char) : TimeFields × List Char :=
  ({ tf with month := p.1 }, p.2)

def withDay (tf : TimeFields) (p : Int × List Char) : TimeFields × List Char :=
  ({ tf with day := p.1 }, p.2)

/-- Candidate matches of one directive at the head of the input, listed
in the preference order of the corresponding CPython regex. -/
def dirAlts (d : Dir) (tf : TimeFields) (s : List Char) : List (TimeFields × List Char) :=
  match d with
  | .lit c =>
    match s with
    | d0 :: rest => if c.toLower == d0.toLower then [(tf, rest)] else []
    | [] => []
  | .ws =>
    let n := (s.takeWhile pyWs).length
    (List.range n).map fun i => (tf, s.drop (n - i))
  | .year4 => optToList ((matchYear4 s).map fun p => ({ tf with year := p.1 }, p.2))
  | .month =>
    ((optToList ((matchNum2 (fun c => c == '1') (fun c => '0' ≤ c && c ≤ '2') s).map (withMonth tf)))
      ++ optToList ((matchNum2 (fun c => c == '0') (fun c => '1' ≤ c && c ≤ '9') s).map (withMonth tf)))
      ++ optToList ((matchNum1 (fun c => '1' ≤ c && c ≤ '9') s).map (withMonth tf))
  | .day =>
    (((optToList ((matchNum2 (fun c => c == '3') (fun c => c == '0' || c == '1') s).map (withDay tf)))
      ++ optToList ((matchNum2 (fun c => c == '1' || c == '2') Char.isDigit s).map (withDay tf)))
      ++ optToList ((matchNum2 (fun c => c == '0') (fun c => '1' ≤ c && c ≤ '9') s).map (withDay tf)))
      ++ optToList ((matchNum1 (fun c => '1' ≤ c && c ≤ '9') s).map (withDay tf))
  | .hour =>
    ((optToList ((matchNum2 (fun c => c == '2') (fun c => '0' ≤ c && c ≤ '3') s).map
        fun p => ({ tf with hour := p.1 }, p.2)))
      ++ optToList ((matchNum2 (fun c => c == '0' || c == '1') Char.isDigit s).map
        fun p => ({ tf with hour := p.1 }, p.2)))
      ++ optToList ((matchNum1 Char.isDigit s).map fun p => ({ tf with hour := p.1 }, p.2))
  | .minute =>
    (optToList ((matchNum2 (fun c => '0' ≤ c && c ≤ '5') Char.isDigit s).map
        fun p => ({ tf with minute := p.1 }, p.2)))
      ++ optToList ((matchNum1 Char.isDigit s).map fun p => ({ tf with minute := p.1 }, p.2))
  | .second =>
    (optToList ((matchNum2 (fun c => '0' ≤ c && c ≤ '5') Char.isDigit s).map
        fun p => ({ tf with second := p.1 }, p.2)))
      ++ optToList ((matchNum1 Char.isDigit s).map fun p => ({ tf with second := p.1 }, p.2))
  | .frac =>
    let n := min 6 (s.takeWhile Char.isDigit).length
    (List.range n).map fun i => (tf, s.drop (n - i))
  | .monthFull => optToList ((matchName monthNamesFull s).map (withMonth tf))
  | .monthAbbr => optToList ((matchName monthNamesAbbr s).map (withMonth tf))

/-- Regex-style matching of a directive list against the input with
backtracking (candidate continuations of each directive are tried in
order); the whole input must be consumed (`strptime` raises on
unconverted trailing data). -/
def matchDirs : List Dir -> List Char -> TimeFields -> Option TimeFields
  | [], s, tf => if s.isEmpty then some tf else none
  | d :: ds, s, tf => (dirAlts d tf s).findSome? fun alt => matchDirs ds alt.2 alt.1

/-- `datetime.strptime(s, fmt).replace(tzinfo=timezone.utc)` as epoch
seconds; `none` on a `ValueError` (failed match or invalid date). -/
def strptimeUTC (fmt : String) (s : List Char) : Option Int :=
  match matchDirs (parseFormat fmt.data) s strptimeDefaults with
  | none => none
  | some tf =>
    if validDatetime tf then some (mkUTC tf.year tf.month tf.day tf.hour tf.minute tf.second)
    else none

/-- The format list of `OpenAINewsScraper._parse_date`, in source order. -/
def dateFormats : List String :=
  ["%Y-%m-%dT%H:%M:%S.%fZ", "%Y-%m-%dT%H:%M:%SZ", "%Y-%m-%d",
   "%B %d, %Y", "%b %d, %Y", "%d %B %Y", "%d %b %Y"]

/-- The `for fmt in formats` loop: first format that parses wins. -/
def tryDateFormats (s : List Char) : List String → Option Int
  | [] => none
  | fmt :: rest =>
    match strptimeUTC fmt s with
    | some t => some t
    | none => tryDateFormats s rest

def unitSecondsList : List (String × Int) :=
  [("day", 86400), ("hour", 3600), ("minute", 60), ("week", 604800)]

/-- The unit alternation `(day|hour|minute|week)` (input already
lower-cased, so exact matching suffices; the four units start with
distinct letters, so at most one alternative matches). -/
def matchUnit (s : List Char) : Option (Int × List Char) :=
  match unitSecondsList.find? (fun u => (dropLit u.1.data s).isSome) with
  | none => none
  | some u => (dropLit u.1.data s).map fun r => (u.2, r)

def digitsToInt (ds : List Char) : Int :=
  ds.foldl (fun acc c => acc * 10 + digitVal c) 0

/-- `re.match(r'(\d+)\s*(day|hour|minute|week)s?\s*ago', ...)` applied to
the lower-cased date string, computing `now - N * unit`; `re.match`
anchors at the start of the string only. -/
def parseRelative (now : Int) (l : List Char) : Option Int :=
  let ds := l.takeWhile Char.isDigit
  let r1 := l.dropWhile Char.isDigit
  if ds.isEmpty then none
  else
    let r2 := r1.dropWhile pyWs
    match matchUnit r2 with
    | none => none
    | some (secs, r3) =>
      let r4 := match r3 with
        | 's' :: t => t
        | other => other
      let r5 := r4.dropWhile pyWs
      match dropLit "ago".data r5 with
      | some _ => some (now - digitsToInt ds * secs)
      | none => none

/-- `OpenAINewsScraper._parse_date`.  The `now` argument is the clock
value read inside the relative-date branch at parse time. -/
def openai_parse_date (now : Int) (date_str : String) : Option Int :=
  if date_str == "" then none
  else
    match tryDateFormats (pyStrip date_str.data) dateFormats with
    | some dt => some dt
    | none => parseRelative now (date_str.data.map Char.toLower)

/-! ### OpenAI news scraper (`app/ingest/scrapers/openai_news.py`)

The DOM extraction performed inside the headless browser is an opaque
collaborator returning a list of raw items (title, url, dateStr,
description); the Python-side loop that dates and filters them is
modelled here.  `now` is the clock value read once before the loop
(`cutoff_time = now - hours_back`); `parse_now` is the clock value the
relative-date branch of `_parse_date` reads while the loop runs. -/

structure RawPageItem where
  title : String
  url : String
  dateStr : String
  description : String
deriving Repr, DecidableEq

structure OpenAIArticle where
  title : String
  url : String
  published_at : Int
  description : String
  content : Option String
deriving Repr, DecidableEq

/-- The body of the item loop of `OpenAINewsScraper.fetch_articles`:
items whose date string parses to nothing are skipped, items older than
the cutoff are skipped. -/
def openaiItemToArticle (parse_now cutoff_time : Int) (item : RawPageItem) :
    Option OpenAIArticle :=
  match openai_parse_date parse_now item.dateStr with
  | none => none
  | some published_at =>
    if published_at < cutoff_time then none
    else some
      { title := item.title
        url := item.url
        published_at := published_at
        description := item.description
        content := none }

/-- `OpenAINewsScraper.fetch_articles`, from the extracted raw items
onward. -/
def openai_fetch_articles (articles_data : List RawPageItem)
    (now parse_now hours_back : Int) : List OpenAIArticle :=
  let cutoff_time := now - hours_back * 3600
  articles_data.filterMap (openaiItemToArticle parse_now cutoff_time)

/-- `OpenAINewsScraper.fetch_articles_with_content`: enrich every listed
article; a failing conversion is caught per item and recorded as an
absent body.  `convert` models `convert_url_to_markdown`. -/
def openai_fetch_articles_with_content (convert : String → Except String String)
    (articles_data : List RawPageItem) (now parse_now hours_back : Int) :
    List OpenAIArticle :=
  (openai_fetch_articles articles_data now parse_now hours_back).map fun article =>
    match convert article.url with
    | .ok md => { article with content := some md }
    | .error _ => { article with content := none }

/-! ### Anthropic scraper (`app/ingest/scrapers/anthropic_news.py`) -/

inductive AnthropicFeedType where
  | news
  | engineering
  | research
deriving Repr, DecidableEq

structure AnthropicArticle where
  title : String
  url : String
  guid : String
  published_at : Option Int
  description : String
  category : String
  feed_type : AnthropicFeedType
  content : Option String
deriving Repr, DecidableEq

/-- Construction of an article from a feed entry inside
`AnthropicScraper._fetch_feed`. -/
def mkAnthropicArticle (feed_type : AnthropicFeedType) (entry : FeedEntry)
    (published_at : Option Int) : AnthropicArticle :=
  { title := entry.title
    url := entry.link
    guid := entry.entryId.getD entry.link
    published_at := published_at
    description := entry.summary.getD ""
    category := entry.tags.headD ""
    feed_type := feed_type
    content := none }

/-- The body of the entry loop of `AnthropicScraper._fetch_feed`: dated
entries older than the cutoff are skipped; undated entries are skipped
unless `include_undated`. -/
def anthropicEntryToArticle (feed_type : AnthropicFeedType) (cutoff_time : Int)
    (include_undated : Bool) (entry : FeedEntry) : Option AnthropicArticle :=
  match entry.published_parsed with
  | some published_at =>
    if published_at < cutoff_time then none
    else some (mkAnthropicArticle feed_type entry (some published_at))
  | none =>
    if include_undated then some (mkAnthropicArticle feed_type entry none)
    else none

/-- `AnthropicScraper._fetch_feed`, from the parsed feed onward. -/
def anthropic_fetch_feed (feed_type : AnthropicFeedType) (feed : Feed)
    (now hours_back : Int) (include_undated : Bool) :
    Except String (List AnthropicArticle) :=
  if feed.bozo then .error "Failed to parse RSS feed"
  else
    let cutoff_time := now - hours_back * 3600
    .ok (feed.entries.filterMap (anthropicEntryToArticle feed_type cutoff_time include_undated))

/-- The feed loop of `AnthropicScraper.fetch_articles`: the first feed
whose `_fetch_feed` raises aborts the whole call (no `try` in the
source). -/
def anthropicCollectFeeds (feeds : AnthropicFeedType → Feed) (now hours_back : Int)
    (include_undated : Bool) : List AnthropicFeedType → Except String (List AnthropicArticle)
  | [] => .ok []
  | ft :: rest =>
    match anthropic_fetch_feed ft (feeds ft) now hours_back include_undated with
    | .error e => .error e
    | .ok articles =>
      match anthropicCollectFeeds feeds now hours_back include_undated rest with
      | .error e => .error e
      | .ok more => .ok (articles ++ more)

/-- `datetime.min` (0001-01-01 00:00:00), the sort key given to undated
articles. -/
def datetimeMin : Int := mkUTC 1 1 1 0 0 0

def anthropicSortKey (a : AnthropicArticle) : Int :=
  a.published_at.getD datetimeMin

/-- `list.sort(key=..., reverse=True)`: stable descending order by
publish date, undated articles keyed at `datetime.min`.  `le a b` means
`a` may come before `b`; for equal keys stability keeps the original
order. -/
def anthropicSortLe (a b : AnthropicArticle) : Bool :=
  anthropicSortKey b ≤ anthropicSortKey a

/-- Stable insertion: `x` is placed before the first element it may
precede, after earlier-inserted equal elements' predecessors — giving
exactly the output of Python's stable sort for the same preorder. -/
def insertStable (le : AnthropicArticle → AnthropicArticle → Bool)
    (x : AnthropicArticle) : List AnthropicArticle → List AnthropicArticle
  | [] => [x]
  | y :: ys => if le x y then x :: y :: ys else y :: insertStable le x ys

/-- Stable sort by insertion (agrees with any stable sort over a total
preorder, in particular Python's `list.sort`). -/
def pySort (le : AnthropicArticle → AnthropicArticle → Bool) :
    List AnthropicArticle → List AnthropicArticle
  | [] => []
  | x :: xs => insertStable le x (pySort le xs)

/-- `AnthropicScraper.fetch_articles`: collect all requested feeds
(`none` means the default, every feed in declaration order) and sort
newest first. -/
def anthropic_fetch_articles (feeds : AnthropicFeedType → Feed)
    (feed_types : Option (List AnthropicFeedType)) (now hours_back : Int)
    (include_undated : Bool) : Except String (List AnthropicArticle) :=
  let fts := feed_types.getD [.news, .engineering, .research]
  match anthropicCollectFeeds feeds now hours_back include_undated fts with
  | .error e => .error e
  | .ok all_articles => .ok (pySort anthropicSortLe all_articles)

/-- `AnthropicScraper.fetch_news` (defaults: `hours_back=24`,
undated dropped). -/
def anthropic_fetch_news (feeds : AnthropicFeedType → Feed) (now hours_back : Int) :
    Except String (List AnthropicArticle) :=
  anthropic_fetch_articles feeds (some [.news]) now hours_back false

/-- `AnthropicScraper.fetch_engineering` (defaults: `hours_back=168`,
undated dropped). -/
def anthropic_fetch_engineering (feeds : AnthropicFeedType → Feed) (now hours_back : Int) :
    Except String (List AnthropicArticle) :=
  anthropic_fetch_articles feeds (some [.engineering]) now hours_back false

/-- `AnthropicScraper.fetch_research`: `include_undated` defaults to
`true`, with a very large window (`hours_back=99999`). -/
def anthropic_fetch_research (feeds : AnthropicFeedType → Feed) (now : Int)
    (include_undated : Bool) : Except String (List AnthropicArticle) :=
  anthropic_fetch_articles feeds (some [.research]) now 99999 include_undated

/-- `AnthropicScraper.fetch_articles_with_content`: enrich every listed
article; a failing conversion is caught per item and recorded as an
absent body. -/
def anthropic_fetch_articles_with_content (convert : String → Except String String)
    (feeds : AnthropicFeedType → Feed) (feed_types : Option (List AnthropicFeedType))
    (now hours_back : Int) (include_undated : Bool) :
    Except String (List AnthropicArticle) :=
  match anthropic_fetch_articles feeds feed_types now hours_back include_undated with
  | .error e => .error e
  | .ok articles =>
    .ok (articles.map fun article =>
      match convert article.url with
      | .ok md => { article with content := some md }
      | .error _ => { article with content := none })

/-! ### Ingestion runner (`app/ingest/runner.py`)

Each per-source fetch is modelled by its outcome: the scraper either
returns a list of items or raises (`Except.error`).  The runner-level
`try`/`except` blocks are modelled exactly: YouTube catches per channel,
Anthropic and OpenAI catch around the whole source fetch. -/

/-- `fetch_youtube`: iterate the configured channels, catching each
channel's failure individually and keeping the videos of the channels
that succeeded. -/
def runner_fetch_youtube (scrape_channel : String → Except String (List ChannelVideo))
    (channel_ids : List String) : List ChannelVideo :=
  channel_ids.foldl
    (fun all_videos channel_id =>
      match scrape_channel channel_id with
      | .ok videos => all_videos ++ videos
      | .error _ => all_videos)
    []

/-- `fetch_anthropic`: a raising fetch is caught and recorded as the
empty list. -/
def runner_fetch_anthropic (outcome : Except String (List AnthropicArticle)) :
    List AnthropicArticle :=
  match outcome with
  | .ok articles => articles
  | .error _ => []

/-- `fetch_openai`: a raising fetch is caught and recorded as the empty
list. -/
def runner_fetch_openai (outcome : Except String (List OpenAIArticle)) :
    List OpenAIArticle :=
  match outcome with
  | .ok articles => articles
  | .error _ => []

/-- The mapping returned by `run_all` (keys `'youtube'`, `'anthropic'`,
`'openai'`). -/
structure RunResults where
  youtube : List ChannelVideo
  anthropic : List AnthropicArticle
  openai : List OpenAIArticle
deriving Repr, DecidableEq

/-- `run_all`: every configured source is fetched and recorded. -/
def run_all (scrape_channel : String → Except String (List ChannelVideo))
    (youtube_channels : List String)
    (anthropic_outcome : Except String (List AnthropicArticle))
    (openai_outcome : Except String (List OpenAIArticle)) : RunResults :=
  { youtube := runner_fetch_youtube scrape_channel youtube_channels
    anthropic := runner_fetch_anthropic anthropic_outcome
    openai := runner_fetch_openai openai_outcome }

/-! ### Transcript parser (`YouTubeScraper._parse_json3` / `_parse_vtt` /
`_parse_transcript`)

JSON documents decoded by `json.loads` are modelled by `JValue`;
`json.loads` itself is an opaque collaborator passed in as a function
that either yields a decoded value or fails with `JSONDecodeError`.
Python dynamic-typing failures of `_parse_json3` (iterating a
non-iterable, `.get` on a non-dict, joining non-strings) are modelled as
`typeError` / `attributeError` outcomes, which — unlike `JSONDecodeError`
and `KeyError` — are *not* caught by `_parse_transcript`. -/

inductive PyError where
  | jsonDecodeError
  | keyError
  | typeError
  | attributeError
deriving Repr, DecidableEq

instance exceptDecEq {e a : Type} [DecidableEq e] [DecidableEq a] :
    DecidableEq (Except e a) := fun x y =>
  match x, y with
  | .ok u, .ok v =>
    if h : u = v then isTrue (by rw [h]) else isFalse (by intro hc; cases hc; exact h rfl)
  | .error u, .error v =>
    if h : u = v then isTrue (by rw [h]) else isFalse (by intro hc; cases hc; exact h rfl)
  | .ok _, .error _ => isFalse (by intro hc; cases hc)
  | .error _, .ok _ => isFalse (by intro hc; cases hc)

inductive JValue where
  | null
  | boolean (b : Bool)
  | num (n : Int)
  | str (s : String)
  | arr (xs : List JValue)
  | obj (fields : List (String × JValue))

/-- `value.get(key, default)`: only dicts have `.get`. -/
def jGet (v : JValue) (key : String) (dflt : JValue) : Except PyError JValue :=
  match v with
  | .obj fields => .ok ((((fields.find? (fun p => p.1 == key)).map Prod.snd)).getD dflt)
  | _ => .error .attributeError

/-- `for x in value`: lists iterate their elements, strings their
characters, dicts their keys; everything else raises `TypeError`. -/
def jIter : JValue → Except PyError (List JValue)
  | .arr xs => .ok xs
  | .str s => .ok (s.data.map fun c => .str (String.mk [c]))
  | .obj fields => .ok (fields.map fun p => .str p.1)
  | _ => .error .typeError

/-- Python truthiness of a decoded JSON value. -/
def jTruthy : JValue → Bool
  | .null => false
  | .boolean b => b
  | .num n => n != 0
  | .str s => s != ""
  | .arr xs => !xs.isEmpty
  | .obj fields => !fields.isEmpty

/-- `value == "\n"`: true only for the string value. -/
def jEqNewline : JValue → Bool
  | .str s => s == "\n"
  | _ => false

/-- `''.join(parts)`: raises `TypeError` when any part is not a string. -/
def pyJoinStrs : List JValue → Except PyError String
  | [] => .ok ""
  | .str s :: rest => (pyJoinStrs rest).map fun t => s ++ t
  | _ :: _ => .error .typeError

/-- Whitespace-run collapsing of `re.sub(r'\s+', ' ', s)`: every maximal
whitespace run becomes one space (the boolean tracks whether the
previous input character belonged to a run). -/
def collapseWsAux : Bool → List Char → List Char
  | _, [] => []
  | prevWs, c :: rest =>
    if pyWs c then
      if prevWs then collapseWsAux true rest
      else ' ' :: collapseWsAux true rest
    else c :: collapseWsAux false rest

/-- `re.sub(r'\s+', ' ', s).strip()`. -/
def normalizeWs (s : String) : String :=
  String.mk (pyStrip (collapseWsAux false s.data))

/-- The inner `for seg in segs` loop of `_parse_json3`: keep `utf8`
values that are truthy and not the bare newline string. -/
def collectSegs (acc : List JValue) : List JValue → Except PyError (List JValue)
  | [] => .ok acc
  | seg :: rest =>
    match jGet seg "utf8" (.str "") with
    | .error e => .error e
    | .ok text =>
      collectSegs (if jTruthy text && !(jEqNewline text) then acc ++ [text] else acc) rest

/-- The outer `for event in events` loop of `_parse_json3`. -/
def collectEvents (acc : List JValue) : List JValue → Except PyError (List JValue)
  | [] => .ok acc
  | event :: rest =>
    match jGet event "segs" (.arr []) with
    | .error e => .error e
    | .ok segs =>
      match jIter segs with
      | .error e => .error e
      | .ok segList =>
        match collectSegs acc segList with
        | .error e => .error e
        | .ok acc' => collectEvents acc' rest

/-- `YouTubeScraper._parse_json3` on the decoded document. -/
def parse_json3 (data : JValue) : Except PyError String :=
  match jGet data "events" (.arr []) with
  | .error e => .error e
  | .ok events =>
    match jIter events with
    | .error e => .error e
    | .ok eventList =>
      match collectEvents [] eventList with
      | .error e => .error e
      | .ok text_parts =>
        match pyJoinStrs text_parts with
        | .error e => .error e
        | .ok full_text => .ok (normalizeWs full_text)

/-- `'-->' in line` (the timestamp-line marker). -/
def containsArrow : List Char → Bool
  | '-' :: '-' :: '>' :: _ => true
  | _ :: rest => containsArrow rest
  | [] => false

/-- `line.strip().startswith(lit)`. -/
def startsWithLit (lit : String) (l : List Char) : Bool :=
  (dropLit lit.data l).isSome

/-- Scanner for `re.sub(r'<[^>]+>', '', line)`.  The first argument is
`none` outside a potential tag and `some buf` after an opening `<`, with
`buf` the characters read since.  A `>` closing a non-empty buffer ends a
match (the tag is dropped); `<>` is not a match (the `[^>]+` group needs
at least one character) and is emitted verbatim; an unclosed `<` and its
buffer are emitted verbatim at the end of input — exactly the
non-overlapping left-to-right matches of the regex. -/
def removeTagsAux : Option (List Char) -> List Char -> List Char
  | none, [] => []
  | some buf, [] => '<' :: buf
  | none, c :: rest =>
    if c == '<' then removeTagsAux (some []) rest
    else c :: removeTagsAux none rest
  | some buf, c :: rest =>
    if c == '>' then
      if buf.isEmpty then '<' :: '>' :: removeTagsAux none rest
      else removeTagsAux none rest
    else removeTagsAux (some (buf ++ [c])) rest

/-- `re.sub` of the tag pattern applied to the whole line. -/
def removeTags (l : List Char) : List Char :=
  removeTagsAux none l

/-- `re.sub(r'^[A-Z\s]+\d+:\d+:\d+', '', line)`: strip a leading
speaker-label-plus-timestamp prefix.  The three character classes
involved (`[A-Z\s]`, `\d`, `:`) are pairwise disjoint, so greedy
matching needs no backtracking. -/
def speakerLabelChar (c : Char) : Bool :=
  ('A' ≤ c && c ≤ 'Z') || pyWs c

def takeDigits1 (l : List Char) : Option (List Char) :=
  if (l.takeWhile Char.isDigit).isEmpty then none else some (l.dropWhile Char.isDigit)

def matchSpeakerLabel (l : List Char) : Option (List Char) :=
  let caps := l.takeWhile speakerLabelChar
  let r0 := l.dropWhile speakerLabelChar
  if caps.isEmpty then none
  else
    match takeDigits1 r0 with
    | none => none
    | some r1 =>
      match r1 with
      | ':' :: r2 =>
        (match takeDigits1 r2 with
        | none => none
        | some r3 =>
          match r3 with
          | ':' :: r4 => takeDigits1 r4
          | _ => none)
      | _ => none

def removeSpeakerLabel (l : List Char) : List Char :=
  match matchSpeakerLabel l with
  | some rest => rest
  | none => l

/-- `str.split('\n')`. -/
def splitOnNl : List Char → List (List Char)
  | [] => [[]]
  | '\n' :: rest => [] :: splitOnNl rest
  | c :: rest =>
    match splitOnNl rest with
    | line :: lines => (c :: line) :: lines
    | [] => [[c]]

/-- The per-line body of the `_parse_vtt` loop: skip blank, timestamp and
header lines; strip markup and speaker labels; keep the stripped line if
anything remains. -/
def vttLine (line : List Char) : Option (List Char) :=
  if (pyStrip line).isEmpty then none
  else if containsArrow line then none
  else if startsWithLit "WEBVTT" (pyStrip line) then none
  else if startsWithLit "NOTE" (pyStrip line) then none
  else if startsWithLit "Kind:" (pyStrip line) then none
  else if startsWithLit "Language:" (pyStrip line) then none
  else
    let line1 := removeTags line
    let line2 := removeSpeakerLabel line1
    if (pyStrip line2).isEmpty then none else some (pyStrip line2)

/-- `' '.join(text_lines)`. -/
def joinWithSpace : List (List Char) → List Char
  | [] => []
  | [x] => x
  | x :: y :: rest => x ++ ' ' :: joinWithSpace (y :: rest)

/-- `YouTubeScraper._parse_vtt`: kept lines joined by single spaces. -/
def parse_vtt (vtt_content : String) : String :=
  String.mk (joinWithSpace ((splitOnNl vtt_content.data).filterMap vttLine))

/-- `YouTubeScraper._parse_transcript`: strip the payload; when it starts
with an opening brace attempt JSON3 parsing, falling back to VTT parsing
only on `json.JSONDecodeError` or `KeyError`; other exceptions
propagate.  `json_loads` models the opaque `json.loads` collaborator. -/
def startsWithBrace : List Char → Bool
  | c :: _ => c == '\x7b'
  | [] => false

def parse_transcript (json_loads : String → Except PyError JValue) (raw : String) :
    Except PyError String :=
  let content := String.mk (pyStrip raw.data)
  if startsWithBrace content.data then
    match (json_loads content).bind parse_json3 with
    | .ok text => .ok text
    | .error e =>
      if e == .jsonDecodeError || e == .keyError then .ok (parse_vtt content)
      else .error e
  else .ok (parse_vtt content)

/-! ### Whitespace-shape predicates

`wsNormalized` holds of a string in which no two adjacent characters are
both whitespace and neither end is whitespace — the shape produced by
collapsing every whitespace run to a single space and trimming. -/

def firstNotWs : List Char → Bool
  | [] => true
  | c :: _ => !pyWs c

def lastNotWs : List Char → Bool
  | [] => true
  | [c] => !pyWs c
  | _ :: rest => lastNotWs rest

def headOkFor (c : Char) : List Char → Bool
  | [] => true
  | d :: _ => !(pyWs c && pyWs d)

def noAdjWs : List Char → Bool
  | [] => true
  | c :: rest => headOkFor c rest && noAdjWs rest

def wsNormalized (l : List Char) : Bool :=
  firstNotWs l && noAdjWs l && lastNotWs l

theorem collapseWsAux_true_firstNotWs (l : List Char) :
    firstNotWs (collapseWsAux true l) = true := by
  induction l with
  | nil => rfl
  | cons c rest ih =>
    rw [collapseWsAux]
    by_cases hc : pyWs c = true
    · simpa [hc] using ih
    · have hc' : pyWs c = false := by simpa using hc
      simp [hc', firstNotWs]

theorem collapseWsAux_noAdjWs (l : List Char) :
    ∀ b, noAdjWs (collapseWsAux b l) = true := by
  induction l with
  | nil => intro b; rfl
  | cons c rest ih =>
    intro b
    rw [collapseWsAux]
    by_cases hc : pyWs c = true
    · cases b with
      | true => simpa [hc] using ih true
      | false =>
        have hgoal : noAdjWs (' ' :: collapseWsAux true rest) = true := by
          rw [noAdjWs, Bool.and_eq_true]
          refine ⟨?_, ih true⟩
          have hfst := collapseWsAux_true_firstNotWs rest
          cases hout : collapseWsAux true rest with
          | nil => rfl
          | cons d tl =>
            rw [hout, firstNotWs] at hfst
            simp only [Bool.not_eq_true'] at hfst
            simp [headOkFor, hfst]
        simpa [hc] using hgoal
    · have hc' : pyWs c = false := by simpa using hc
      have hgoal : noAdjWs (c :: collapseWsAux false rest) = true := by
        rw [noAdjWs, Bool.and_eq_true]
        refine ⟨?_, ih false⟩
        cases collapseWsAux false rest with
        | nil => rfl
        | cons d tl => simp [headOkFor, hc']
      simpa [hc'] using hgoal

theorem dropWhile_pyWs_firstNotWs (l : List Char) :
    firstNotWs (l.dropWhile pyWs) = true := by
  induction l with
  | nil => rfl
  | cons c rest ih =>
    rw [List.dropWhile_cons]
    by_cases hc : pyWs c = true
    · simpa [hc] using ih
    · have hc' : pyWs c = false := by simpa using hc
      simp [hc', firstNotWs]

theorem dropWhile_noAdjWs (l : List Char) (h : noAdjWs l = true) :
    noAdjWs (l.dropWhile pyWs) = true := by
  induction l with
  | nil => exact h
  | cons c rest ih =>
    rw [noAdjWs, Bool.and_eq_true] at h
    rw [List.dropWhile_cons]
    by_cases hc : pyWs c = true
    · simpa [hc] using ih h.2
    · have hc' : pyWs c = false := by simpa using hc
      simp only [hc', Bool.false_eq_true, if_false]
      rw [noAdjWs, Bool.and_eq_true]
      exact h

/-- `dropTrailingWs` of a non-empty list is empty or keeps its head. -/
theorem dropTrailingWs_head (c : Char) (rest : List Char) :
    dropTrailingWs (c :: rest) = [] ∨ ∃ tl, dropTrailingWs (c :: rest) = c :: tl := by
  rw [dropTrailingWs]
  cases dropTrailingWs rest with
  | nil =>
    by_cases hc : pyWs c = true
    · left
      simp [hc]
    · have hc' : pyWs c = false := by simpa using hc
      right
      exact ⟨[], by simp [hc']⟩
  | cons d tl =>
    right
    exact ⟨d :: tl, rfl⟩

theorem dropTrailingWs_noAdjWs (l : List Char) (h : noAdjWs l = true) :
    noAdjWs (dropTrailingWs l) = true := by
  induction l with
  | nil => exact h
  | cons c rest ih =>
    rw [noAdjWs, Bool.and_eq_true] at h
    rw [dropTrailingWs]
    cases hdt : dropTrailingWs rest with
    | nil =>
      by_cases hc : pyWs c = true
      · simp [hc, noAdjWs]
      · have hc' : pyWs c = false := by simpa using hc
        simp [hc', noAdjWs, headOkFor]
    | cons d tl =>
      rw [noAdjWs, Bool.and_eq_true]
      refine ⟨?_, by rw [← hdt]; exact ih h.2⟩
      cases rest with
      | nil => simp [dropTrailingWs] at hdt
      | cons c' rest' =>
        rcases dropTrailingWs_head c' rest' with he | ⟨tl', htl⟩
        · rw [he] at hdt
          cases hdt
        · rw [htl] at hdt
          cases hdt
          exact h.1

theorem dropTrailingWs_firstNotWs (l : List Char) (h : firstNotWs l = true) :
    firstNotWs (dropTrailingWs l) = true := by
  cases l with
  | nil => exact h
  | cons c rest =>
    rcases dropTrailingWs_head c rest with he | ⟨tl, htl⟩
    · rw [he]
      rfl
    · rw [htl]
      rw [firstNotWs] at h ⊢
      exact h

theorem dropTrailingWs_lastNotWs (l : List Char) :
    lastNotWs (dropTrailingWs l) = true := by
  induction l with
  | nil => rfl
  | cons c rest ih =>
    rw [dropTrailingWs]
    cases hdt : dropTrailingWs rest with
    | nil =>
      by_cases hc : pyWs c = true
      · simp [hc, lastNotWs]
      · have hc' : pyWs c = false := by simpa using hc
        simp [hc', lastNotWs]
    | cons d tl =>
      have heq : lastNotWs (c :: d :: tl) = lastNotWs (d :: tl) := rfl
      rw [heq, ← hdt]
      exact ih

theorem wsNormalized_pyStrip_collapse (l : List Char) :
    wsNormalized (pyStrip (collapseWsAux false l)) = true := by
  rw [wsNormalized, pyStrip]
  simp only [Bool.and_eq_true]
  have h1 := collapseWsAux_noAdjWs l false
  refine ⟨⟨?_, ?_⟩, ?_⟩
  · exact dropTrailingWs_firstNotWs _ (dropWhile_pyWs_firstNotWs _)
  · exact dropTrailingWs_noAdjWs _ (dropWhile_noAdjWs _ h1)
  · exact dropTrailingWs_lastNotWs _

/-- `normalizeWs` always yields a fully whitespace-normalized string. -/
theorem wsNormalized_normalizeWs (s : String) :
    wsNormalized (normalizeWs s).data = true :=
  wsNormalized_pyStrip_collapse s.data

/-- Every line kept by the VTT loop is the non-empty strip of some text,
hence free of edge whitespace. -/
theorem vttLine_shape (line r : List Char) (h : vttLine line = some r) :
    r ≠ [] ∧ firstNotWs r = true ∧ lastNotWs r = true := by
  rw [vttLine] at h
  split at h
  · cases h
  · split at h
    · cases h
    · split at h
      · cases h
      · split at h
        · cases h
        · split at h
          · cases h
          · split at h
            · cases h
            · dsimp only at h
              split at h
              · cases h
              · rename_i hne
                cases h
                refine ⟨by simpa using hne, ?_, ?_⟩
                · exact dropTrailingWs_firstNotWs _ (dropWhile_pyWs_firstNotWs _)
                · exact dropTrailingWs_lastNotWs _

theorem firstNotWs_append (x l : List Char) (hx : x ≠ []) :
    firstNotWs (x ++ l) = firstNotWs x := by
  cases x with
  | nil => exact absurd rfl hx
  | cons c tl => rfl

theorem lastNotWs_cons_of_ne (c : Char) (rest : List Char) (h : rest ≠ []) :
    lastNotWs (c :: rest) = lastNotWs rest := by
  cases rest with
  | nil => exact absurd rfl h
  | cons d tl => rfl

theorem lastNotWs_append (x l : List Char) (hl : l ≠ []) :
    lastNotWs (x ++ l) = lastNotWs l := by
  induction x with
  | nil => rfl
  | cons c tl ih =>
    have hne : tl ++ l ≠ [] := by
      intro hcontra
      rcases List.append_eq_nil.mp hcontra with ⟨-, h2⟩
      exact hl h2
    rw [List.cons_append, lastNotWs_cons_of_ne c (tl ++ l) hne]
    exact ih

/-- Edge shape of `' '.join` over chunks that are non-empty and free of
edge whitespace. -/
theorem joinWithSpace_edges (chunks : List (List Char))
    (h : ∀ ch ∈ chunks, ch ≠ [] ∧ firstNotWs ch = true ∧ lastNotWs ch = true) :
    firstNotWs (joinWithSpace chunks) = true ∧ lastNotWs (joinWithSpace chunks) = true := by
  induction chunks with
  | nil => exact ⟨rfl, rfl⟩
  | cons x rest ih =>
    cases rest with
    | nil =>
      obtain ⟨-, h2, h3⟩ := h x (by simp)
      exact ⟨h2, h3⟩
    | cons y rest' =>
      obtain ⟨hx1, hx2, -⟩ := h x (by simp)
      have hrest : ∀ ch ∈ y :: rest', ch ≠ [] ∧ firstNotWs ch = true ∧ lastNotWs ch = true := by
        intro ch hch
        exact h ch (by simp [hch])
      obtain ⟨ih1, ih2⟩ := ih hrest
      rw [joinWithSpace]
      constructor
      · rw [firstNotWs_append x (' ' :: joinWithSpace (y :: rest')) hx1]
        exact hx2
      · rw [lastNotWs_append x (' ' :: joinWithSpace (y :: rest')) (by simp)]
        have hjne : joinWithSpace (y :: rest') ≠ [] := by
          obtain ⟨hy1, -, -⟩ := hrest y (by simp)
          cases rest' with
          | nil => simpa [joinWithSpace] using hy1
          | cons z rest'' =>
            rw [joinWithSpace]
            intro hcontra
            rcases List.append_eq_nil.mp hcontra with ⟨-, h2⟩
            cases h2
        rw [lastNotWs_cons_of_ne ' ' _ hjne]
        exact ih2

/-- `_parse_vtt` output never begins or ends with whitespace. -/
theorem parse_vtt_edges (s : String) :
    firstNotWs (parse_vtt s).data = true ∧ lastNotWs (parse_vtt s).data = true := by
  rw [parse_vtt]
  exact joinWithSpace_edges _ (by
    intro ch hch
    rw [List.mem_filterMap] at hch
    obtain ⟨line, -, hline⟩ := hch
    exact vttLine_shape line ch hline)

/-- A successful `_parse_json3` run returns `normalizeWs` of the joined
segment text. -/
theorem parse_json3_ok_shape (data : JValue) (t : String)
    (h : parse_json3 data = .ok t) : ∃ ft, t = normalizeWs ft := by
  rw [parse_json3] at h
  split at h
  · cases h
  · split at h
    · cases h
    · split at h
      · cases h
      · split at h
        · cases h
        · cases h
          rename_i full_text heq
          exact ⟨full_text, rfl⟩

/-! ### Claims about the transcript parser -/

/-- Counterexample to claim C7 as stated: the cue-text (VTT) parser
preserves whitespace runs inside a line.  The input line
`"hello  world"` contains a two-character whitespace run, yet the parsed
output reproduces it verbatim (two adjacent spaces), so not every
maximal whitespace run of the input contributes exactly one space. -/
theorem transcript_vtt_ws_counterexample :
    parse_vtt "WEBVTT\nhello  world" = "hello  world"
    ∧ wsNormalized ("hello  world".data) = false := by
  constructor
  · decide
  · decide

/-- Claim C7 (amended): both transcript parsers are deterministic (pure
functions of the payload).  The structured (JSON3) parser fully
normalizes whitespace: its output has no two adjacent whitespace
characters and no leading or trailing whitespace.  The cue-text (VTT)
parser strips each kept line and joins kept lines with single spaces, so
its output has no leading or trailing whitespace, but whitespace runs
inside a single line are preserved rather than collapsed. -/
theorem transcript_normalization :
    (∀ (data : JValue) (t : String), parse_json3 data = .ok t → wsNormalized t.data = true)
    ∧ (∀ s : String,
        firstNotWs (parse_vtt s).data = true ∧ lastNotWs (parse_vtt s).data = true) := by
  constructor
  · intro data t h
    obtain ⟨ft, rfl⟩ := parse_json3_ok_shape data t h
    exact wsNormalized_normalizeWs ft
  · exact parse_vtt_edges

/-- Witness for the amended C7 at a concrete structured payload
(`{"events": [{"segs": [{"utf8": "Hello "}, {"utf8": "\n"},
{"utf8": " world"}]}]}` parses to `"Hello world"`, which is
whitespace-normalized). -/
theorem transcript_normalization_witness :
    wsNormalized ("Hello world".data) = true
    ∧ firstNotWs (parse_vtt "a\nb").data = true := by
  constructor
  · exact transcript_normalization.1
      (JValue.obj [("events", JValue.arr [JValue.obj [("segs", JValue.arr
        [JValue.obj [("utf8", JValue.str "Hello ")], JValue.obj [("utf8", JValue.str "\n")],
         JValue.obj [("utf8", JValue.str " world")]])]])])
      "Hello world" (by decide)
  · exact (transcript_normalization.2 "a\nb").1

/-- Counterexample to claim C8 as stated: the payload
`{"events": 1}` is well-formed JSON (so `json.loads` succeeds and
returns a dict whose `events` value is the integer 1), but iterating
that integer raises `TypeError`, which `_parse_transcript` does not
catch — the parser propagates the exception instead of falling back to
cue-text parsing. -/
theorem transcript_fallback_counterexample :
    parse_transcript
      (fun s =>
        if s == "\x7b\"events\": 1\x7d" then .ok (JValue.obj [("events", JValue.num 1)])
        else .error .jsonDecodeError)
      "\x7b\"events\": 1\x7d"
      = .error .typeError := by
  decide

/-- Claim C8 (amended): when the trimmed payload does not start with an
opening brace the parser returns the cue-text (VTT) parse; when it does,
a structured parse failing with `json.JSONDecodeError` or `KeyError`
falls back to the cue-text parse, a successful structured parse is
returned as is, and any other structured-parse exception (`TypeError`,
`AttributeError` from a malformed decoded document) propagates instead
of falling back. -/
theorem transcript_fallback_characterization
    (json_loads : String → Except PyError JValue) (raw : String) :
    (startsWithBrace (pyStrip raw.data) = false →
      parse_transcript json_loads raw = .ok (parse_vtt (String.mk (pyStrip raw.data))))
    ∧ (∀ t, startsWithBrace (pyStrip raw.data) = true →
        (json_loads (String.mk (pyStrip raw.data))).bind parse_json3 = .ok t →
        parse_transcript json_loads raw = .ok t)
    ∧ (∀ e, startsWithBrace (pyStrip raw.data) = true →
        (json_loads (String.mk (pyStrip raw.data))).bind parse_json3 = .error e →
        ((e = .jsonDecodeError ∨ e = .keyError →
            parse_transcript json_loads raw = .ok (parse_vtt (String.mk (pyStrip raw.data))))
          ∧ (e = .typeError ∨ e = .attributeError →
            parse_transcript json_loads raw = .error e))) := by
  refine ⟨?_, ?_, ?_⟩
  · intro hb
    rw [parse_transcript]
    dsimp only
    rw [if_neg (by simp [hb])]
  · intro t hb hok
    rw [parse_transcript]
    dsimp only
    rw [if_pos (by simp [hb]), hok]
  · intro e hb herr
    rw [parse_transcript]
    dsimp only
    rw [if_pos (by simp [hb]), herr]
    constructor
    · intro hcase
      rcases hcase with hjd | hke
      · subst hjd
        simp
      · subst hke
        simp
    · intro hcase
      rcases hcase with hte | hae
      · subst hte
        simp
      · subst hae
        simp

/-- Witness for the amended C8 at concrete inputs: a payload that does
not start with a brace goes straight to cue-text parsing. -/
theorem transcript_fallback_witness :
    parse_transcript (fun _ => .error .jsonDecodeError) "plain text"
      = .ok (parse_vtt (String.mk (pyStrip "plain text".data))) := by
  exact (transcript_fallback_characterization (fun _ => .error .jsonDecodeError)
    "plain text").1 (by decide)

/-! ### Claims about the time-window filter -/

theorem youtubeEntryToVideo_bound (cid : String) (cutoff : Int) (entry : FeedEntry)
    (v : ChannelVideo) (h : youtubeEntryToVideo cid cutoff entry = some v) :
    cutoff ≤ v.published_at := by
  rw [youtubeEntryToVideo] at h
  split at h
  · cases h
  · split at h
    · cases h
    · obtain ⟨vid, -, hv⟩ := Option.map_eq_some'.mp h
      subst hv
      dsimp only
      omega

theorem substackEntryToArticle_bound (cutoff : Int) (entry : FeedEntry)
    (a : SubstackArticle) (h : substackEntryToArticle cutoff entry = some a) :
    cutoff ≤ a.published_at := by
  rw [substackEntryToArticle] at h
  split at h
  · cases h
  · split at h
    · cases h
    · dsimp only at h
      cases h
      dsimp only
      omega

theorem anthropicEntryToArticle_bound (ft : AnthropicFeedType) (cutoff : Int)
    (inc : Bool) (entry : FeedEntry) (a : AnthropicArticle) (d : Int)
    (h : anthropicEntryToArticle ft cutoff inc entry = some a)
    (hd : a.published_at = some d) : cutoff ≤ d := by
  rw [anthropicEntryToArticle] at h
  split at h
  · split at h
    · cases h
    · cases h
      rw [mkAnthropicArticle] at hd
      dsimp only at hd
      cases hd
      omega
  · split at h
    · cases h
      rw [mkAnthropicArticle] at hd
      dsimp only at hd
      cases hd
    · cases h

theorem openaiItemToArticle_bound (parse_now cutoff : Int) (item : RawPageItem)
    (a : OpenAIArticle) (h : openaiItemToArticle parse_now cutoff item = some a) :
    cutoff ≤ a.published_at := by
  rw [openaiItemToArticle] at h
  split at h
  · cases h
  · split at h
    · cases h
    · cases h
      dsimp only
      omega

/-- Claim C1: for every source variant (YouTube feed, Anthropic feed,
OpenAI rendered page, Substack feed), every item returned by the listing
fetch that carries a publish date satisfies
`published_at >= cutoff = now - hours_back`, where the cutoff is
computed once at the start of the fetch. -/
theorem window_filter_lower_bound :
    (∀ (channel_id : String) (feed : Feed) (now hours_back : Int)
        (videos : List ChannelVideo) (v : ChannelVideo),
        fetch_channel_videos channel_id feed now hours_back = .ok videos →
        v ∈ videos → now - hours_back * 3600 ≤ v.published_at)
    ∧ (∀ (feed_type : AnthropicFeedType) (feed : Feed) (now hours_back : Int)
        (include_undated : Bool) (articles : List AnthropicArticle)
        (a : AnthropicArticle) (d : Int),
        anthropic_fetch_feed feed_type feed now hours_back include_undated = .ok articles →
        a ∈ articles → a.published_at = some d → now - hours_back * 3600 ≤ d)
    ∧ (∀ (articles_data : List RawPageItem) (now parse_now hours_back : Int)
        (a : OpenAIArticle),
        a ∈ openai_fetch_articles articles_data now parse_now hours_back →
        now - hours_back * 3600 ≤ a.published_at)
    ∧ (∀ (feed : Feed) (now hours_back : Int) (articles : List SubstackArticle)
        (a : SubstackArticle),
        substack_fetch_articles feed now hours_back = .ok articles →
        a ∈ articles → now - hours_back * 3600 ≤ a.published_at) := by
  refine ⟨?_, ?_, ?_, ?_⟩
  · intro cid feed now hb videos v hok hmem
    rw [fetch_channel_videos] at hok
    split at hok
    · cases hok
    · dsimp only at hok
      cases hok
      rw [List.mem_filterMap] at hmem
      obtain ⟨entry, -, hconv⟩ := hmem
      exact youtubeEntryToVideo_bound cid _ entry v hconv
  · intro ft feed now hb inc articles a d hok hmem hd
    rw [anthropic_fetch_feed] at hok
    split at hok
    · cases hok
    · dsimp only at hok
      cases hok
      rw [List.mem_filterMap] at hmem
      obtain ⟨entry, -, hconv⟩ := hmem
      exact anthropicEntryToArticle_bound ft _ inc entry a d hconv hd
  · intro items now pnow hb a hmem
    rw [openai_fetch_articles] at hmem
    rw [List.mem_filterMap] at hmem
    obtain ⟨item, -, hconv⟩ := hmem
    exact openaiItemToArticle_bound pnow _ item a hconv
  · intro feed now hb articles a hok hmem
    rw [substack_fetch_articles] at hok
    split at hok
    · cases hok
    · dsimp only at hok
      cases hok
      rw [List.mem_filterMap] at hmem
      obtain ⟨entry, -, hconv⟩ := hmem
      exact substackEntryToArticle_bound _ entry a hconv

/-- Sample inputs for the C1 witness: one feed entry published at epoch
second 1000, fetched at `now = 1000` with a one-hour window. -/
def sampleYtEntry : FeedEntry :=
  { title := "t", link := "https://www.youtube.com/watch?v=abcdefghijk",
    entryId := none, summary := none, description := none,
    published_parsed := some 1000, tags := [], content := none, author := none }

def sampleYtFeed : Feed :=
  { bozo := false, entries := [sampleYtEntry] }

def sampleYtVideo : ChannelVideo :=
  { title := "t", url := "https://www.youtube.com/watch?v=abcdefghijk",
    video_id := "abcdefghijk", published_at := 1000, description := "",
    channel_id := "ch", transcript := none }

/-- Witness for C1 at a concrete feed: the one retained video was
published inside the window. -/
theorem window_filter_lower_bound_witness :
    (1000 : Int) - 1 * 3600 ≤ sampleYtVideo.published_at := by
  exact window_filter_lower_bound.1 "ch" sampleYtFeed 1000 1 [sampleYtVideo] sampleYtVideo
    (by decide) (by decide)

/-! ### Claims about the ingestion runner -/

/-- Claim C2: in `run_all` each source's recorded result depends only on
that source's own fetch outcome — replacing any other source's outcome
(by a failure or by any other result) leaves it unchanged, and the run
always completes with a result recorded for all three configured
sources. -/
theorem runner_source_isolation
    (sc sc' : String → Except String (List ChannelVideo)) (chs chs' : List String)
    (an an' : Except String (List AnthropicArticle))
    (oa oa' : Except String (List OpenAIArticle)) :
    (run_all sc chs an oa).youtube = (run_all sc chs an' oa').youtube
    ∧ (run_all sc chs an oa).anthropic = (run_all sc' chs' an oa').anthropic
    ∧ (run_all sc chs an oa).openai = (run_all sc' chs' an' oa).openai :=
  ⟨rfl, rfl, rfl⟩

/-- Counterexample to claim C3 as stated: at a concrete run, a raising
Anthropic fetch produces a result mapping *equal* to the one a healthy
Anthropic fetch with zero matching items produces, so the returned data
alone cannot distinguish "source failed" from "source matched nothing".
-/
theorem runner_failure_indistinguishable_counterexample :
    run_all (fun _ => .ok []) [] (.error "network error") (.ok [])
      = run_all (fun _ => .ok []) [] (.ok []) (.ok []) := rfl

/-- Claim C3 (amended): a source whose fetch raises is recorded in the
returned mapping as the empty list — exactly the value a healthy source
returns when nothing matches the window; the failure is reported only on
the logged output, not in the returned data. -/
theorem runner_failed_source_empty
    (sc : String → Except String (List ChannelVideo)) (chs : List String)
    (an : Except String (List AnthropicArticle)) (oa : Except String (List OpenAIArticle))
    (e e1 e2 : String) :
    (run_all sc chs (.error e) oa).anthropic = []
    ∧ (run_all sc chs an (.error e)).openai = []
    ∧ runner_fetch_anthropic (.error e1) = runner_fetch_anthropic (.ok [])
    ∧ runner_fetch_openai (.error e2) = runner_fetch_openai (.ok []) :=
  ⟨rfl, rfl, rfl, rfl⟩

/-! ### Claims about the date resolver -/

/-- Claim C6: the date resolver parses the ISO timestamp, the
abbreviated month-name date and the relative phrase as specified, and
returns `none` (rather than raising) on any input matching no listed
absolute format and no relative pattern. -/
theorem date_resolver_behaviour (now : Int) :
    openai_parse_date now "2024-01-02T03:04:05Z" = some (mkUTC 2024 1 2 3 4 5)
    ∧ openai_parse_date now "Jan 2, 2024" = some (mkUTC 2024 1 2 0 0 0)
    ∧ openai_parse_date now "3 days ago" = some (now - 3 * 86400)
    ∧ openai_parse_date now "not a date" = none
    ∧ (∀ s : String, s ≠ "" →
        tryDateFormats (pyStrip s.data) dateFormats = none →
        parseRelative now (s.data.map Char.toLower) = none →
        openai_parse_date now s = none) := by
  refine ⟨rfl, rfl, rfl, rfl, ?_⟩
  intro s hne h1 h2
  rw [openai_parse_date, if_neg (by simp [hne]), h1]
  exact h2

/-- Witness for C6 applying the no-format-no-relative case at the
concrete input `"not a date"`. -/
theorem date_resolver_behaviour_witness :
    openai_parse_date 0 "not a date" = none := by
  exact (date_resolver_behaviour 0).2.2.2.2 "not a date" (by decide) (by decide) (by decide)

/-! ### Claims about undated-item retention -/

theorem mem_insertStable (le : AnthropicArticle → AnthropicArticle → Bool)
    (x a : AnthropicArticle) (l : List AnthropicArticle) :
    a ∈ insertStable le x l ↔ a = x ∨ a ∈ l := by
  induction l with
  | nil => simp [insertStable]
  | cons y ys ih =>
    rw [insertStable]
    by_cases hle : le x y = true
    · simp [hle]
    · have hle' : le x y = false := by simpa using hle
      simp [hle', ih]
      tauto

theorem mem_pySort (le : AnthropicArticle → AnthropicArticle → Bool)
    (a : AnthropicArticle) (l : List AnthropicArticle) :
    a ∈ pySort le l ↔ a ∈ l := by
  induction l with
  | nil => simp [pySort]
  | cons x xs ih =>
    rw [pySort, mem_insertStable]
    simp [ih]

theorem anthropicEntryToArticle_dated (ft : AnthropicFeedType) (cutoff : Int)
    (entry : FeedEntry) (a : AnthropicArticle)
    (h : anthropicEntryToArticle ft cutoff false entry = some a) :
    a.published_at.isSome = true := by
  rw [anthropicEntryToArticle] at h
  split at h
  · split at h
    · cases h
    · cases h
      simp [mkAnthropicArticle]
  · simp at h

theorem anthropic_fetch_feed_dated (ft : AnthropicFeedType) (feed : Feed)
    (now hours_back : Int) (articles : List AnthropicArticle) (a : AnthropicArticle)
    (hok : anthropic_fetch_feed ft feed now hours_back false = .ok articles)
    (hmem : a ∈ articles) : a.published_at.isSome = true := by
  rw [anthropic_fetch_feed] at hok
  split at hok
  · cases hok
  · dsimp only at hok
    cases hok
    rw [List.mem_filterMap] at hmem
    obtain ⟨entry, -, hconv⟩ := hmem
    exact anthropicEntryToArticle_dated ft _ entry a hconv

theorem anthropic_fetch_feed_keeps_undated (ft : AnthropicFeedType) (feed : Feed)
    (now hours_back : Int) (articles : List AnthropicArticle) (e : FeedEntry)
    (hok : anthropic_fetch_feed ft feed now hours_back true = .ok articles)
    (hmem : e ∈ feed.entries) (hpp : e.published_parsed = none) :
    mkAnthropicArticle ft e none ∈ articles := by
  rw [anthropic_fetch_feed] at hok
  split at hok
  · cases hok
  · dsimp only at hok
    cases hok
    rw [List.mem_filterMap]
    refine ⟨e, hmem, ?_⟩
    rw [anthropicEntryToArticle, hpp]
    rfl

theorem anthropicCollectFeeds_dated (feeds : AnthropicFeedType → Feed)
    (now hours_back : Int) (fts : List AnthropicFeedType) :
    ∀ (articles : List AnthropicArticle) (a : AnthropicArticle),
      anthropicCollectFeeds feeds now hours_back false fts = .ok articles →
      a ∈ articles → a.published_at.isSome = true := by
  induction fts with
  | nil =>
    intro articles a hok hmem
    rw [anthropicCollectFeeds] at hok
    cases hok
    simp at hmem
  | cons ft rest ih =>
    intro articles a hok hmem
    rw [anthropicCollectFeeds] at hok
    cases hf1 : anthropic_fetch_feed ft (feeds ft) now hours_back false with
    | error err =>
      rw [hf1] at hok
      cases hok
    | ok arts1 =>
      rw [hf1] at hok
      cases hf2 : anthropicCollectFeeds feeds now hours_back false rest with
      | error err =>
        rw [hf2] at hok
        cases hok
      | ok arts2 =>
        rw [hf2] at hok
        cases hok
        rcases List.mem_append.mp hmem with h1 | h2
        · exact anthropic_fetch_feed_dated ft (feeds ft) now hours_back arts1 a hf1 h1
        · exact ih arts2 a hf2 h2

theorem anthropic_fetch_articles_dated (feeds : AnthropicFeedType → Feed)
    (feed_types : Option (List AnthropicFeedType)) (now hours_back : Int)
    (articles : List AnthropicArticle) (a : AnthropicArticle)
    (hok : anthropic_fetch_articles feeds feed_types now hours_back false = .ok articles)
    (hmem : a ∈ articles) : a.published_at.isSome = true := by
  rw [anthropic_fetch_articles] at hok
  cases hcf : anthropicCollectFeeds feeds now hours_back false
      (feed_types.getD [.news, .engineering, .research]) with
  | error err =>
    rw [hcf] at hok
    cases hok
  | ok all =>
    rw [hcf] at hok
    cases hok
    rw [mem_pySort] at hmem
    exact anthropicCollectFeeds_dated feeds now hours_back _ all a hcf hmem

theorem anthropic_fetch_research_keeps_undated (feeds : AnthropicFeedType → Feed)
    (now : Int) (articles : List AnthropicArticle) (e : FeedEntry)
    (hok : anthropic_fetch_research feeds now true = .ok articles)
    (hmem : e ∈ (feeds .research).entries) (hpp : e.published_parsed = none) :
    mkAnthropicArticle .research e none ∈ articles := by
  rw [anthropic_fetch_research, anthropic_fetch_articles] at hok
  cases hcf : anthropicCollectFeeds feeds now 99999 true
      ((some [AnthropicFeedType.research]).getD [.news, .engineering, .research]) with
  | error err =>
    rw [hcf] at hok
    cases hok
  | ok all =>
    rw [hcf] at hok
    cases hok
    rw [mem_pySort]
    rw [Option.getD_some] at hcf
    rw [anthropicCollectFeeds] at hcf
    cases hf1 : anthropic_fetch_feed .research (feeds .research) now 99999 true with
    | error err =>
      rw [hf1] at hcf
      cases hcf
    | ok arts1 =>
      rw [hf1] at hcf
      have h0 : anthropicCollectFeeds feeds now 99999 true [] = .ok ([] : List AnthropicArticle) := rfl
      rw [h0] at hcf
      cases hcf
      rw [List.mem_append]
      left
      exact anthropic_fetch_feed_keeps_undated .research (feeds .research) now 99999 arts1 e
        hf1 hmem hpp

theorem anthropic_with_content_dated (convert : String → Except String String)
    (feeds : AnthropicFeedType → Feed) (feed_types : Option (List AnthropicFeedType))
    (now hours_back : Int) (articles : List AnthropicArticle) (a : AnthropicArticle)
    (hok : anthropic_fetch_articles_with_content convert feeds feed_types now hours_back false
      = .ok articles)
    (hmem : a ∈ articles) : a.published_at.isSome = true := by
  rw [anthropic_fetch_articles_with_content] at hok
  cases hfa : anthropic_fetch_articles feeds feed_types now hours_back false with
  | error err =>
    rw [hfa] at hok
    cases hok
  | ok arts0 =>
    rw [hfa] at hok
    cases hok
    rw [List.mem_map] at hmem
    obtain ⟨b, hbm, hab⟩ := hmem
    have hbd := anthropic_fetch_articles_dated feeds feed_types now hours_back arts0 b hfa hbm
    subst hab
    cases hcb : convert b.url with
    | ok md =>
      simp only [hcb]
      exact hbd
    | error err =>
      simp only [hcb]
      exact hbd

/-- Claim C9: undated-item retention is asymmetric: the research fetch
(whose `include_undated` defaults to `true`) retains every undated feed
entry, independently of the time window (the cutoff comparison never
applies to an undated entry); the news fetch, engineering fetch, the
combined fetch at its default, and the enriched fetch used by the
runner (all with `include_undated = false`) return only dated articles.
-/
theorem undated_retention_policy :
    (∀ (feed_type : AnthropicFeedType) (feed : Feed) (now hours_back : Int)
        (articles : List AnthropicArticle) (e : FeedEntry),
        anthropic_fetch_feed feed_type feed now hours_back true = .ok articles →
        e ∈ feed.entries → e.published_parsed = none →
        mkAnthropicArticle feed_type e none ∈ articles)
    ∧ (∀ (feeds : AnthropicFeedType → Feed) (now : Int)
        (articles : List AnthropicArticle) (e : FeedEntry),
        anthropic_fetch_research feeds now true = .ok articles →
        e ∈ (feeds .research).entries → e.published_parsed = none →
        mkAnthropicArticle .research e none ∈ articles)
    ∧ (∀ (feeds : AnthropicFeedType → Feed) (now hours_back : Int)
        (articles : List AnthropicArticle) (a : AnthropicArticle),
        anthropic_fetch_news feeds now hours_back = .ok articles →
        a ∈ articles → a.published_at.isSome = true)
    ∧ (∀ (feeds : AnthropicFeedType → Feed) (now hours_back : Int)
        (articles : List AnthropicArticle) (a : AnthropicArticle),
        anthropic_fetch_engineering feeds now hours_back = .ok articles →
        a ∈ articles → a.published_at.isSome = true)
    ∧ (∀ (feeds : AnthropicFeedType → Feed) (feed_types : Option (List AnthropicFeedType))
        (now hours_back : Int) (articles : List AnthropicArticle) (a : AnthropicArticle),
        anthropic_fetch_articles feeds feed_types now hours_back false = .ok articles →
        a ∈ articles → a.published_at.isSome = true)
    ∧ (∀ (convert : String → Except String String) (feeds : AnthropicFeedType → Feed)
        (feed_types : Option (List AnthropicFeedType)) (now hours_back : Int)
        (articles : List AnthropicArticle) (a : AnthropicArticle),
        anthropic_fetch_articles_with_content convert feeds feed_types now hours_back false
          = .ok articles →
        a ∈ articles → a.published_at.isSome = true) := by
  refine ⟨?_, ?_, ?_, ?_, ?_, ?_⟩
  · intro ft feed now hb articles e hok hmem hpp
    exact anthropic_fetch_feed_keeps_undated ft feed now hb articles e hok hmem hpp
  · intro feeds now articles e hok hmem hpp
    exact anthropic_fetch_research_keeps_undated feeds now articles e hok hmem hpp
  · intro feeds now hb articles a hok hmem
    rw [anthropic_fetch_news] at hok
    exact anthropic_fetch_articles_dated feeds (some [.news]) now hb articles a hok hmem
  · intro feeds now hb articles a hok hmem
    rw [anthropic_fetch_engineering] at hok
    exact anthropic_fetch_articles_dated feeds (some [.engineering]) now hb articles a hok hmem
  · intro feeds fts now hb articles a hok hmem
    exact anthropic_fetch_articles_dated feeds fts now hb articles a hok hmem
  · intro convert feeds fts now hb articles a hok hmem
    exact anthropic_with_content_dated convert feeds fts now hb articles a hok hmem

/-- Sample inputs for the C9 witness: a single undated research entry. -/
def sampleUndatedEntry : FeedEntry :=
  { title := "r", link := "https://example.com/a", entryId := none, summary := none,
    description := none, published_parsed := none, tags := [], content := none, author := none }

def sampleAnthFeeds : AnthropicFeedType → Feed :=
  fun _ => { bozo := false, entries := [sampleUndatedEntry] }

/-- Witness for C9: the research fetch retains the undated sample entry.
-/
theorem undated_retention_policy_witness :
    mkAnthropicArticle AnthropicFeedType.research sampleUndatedEntry none
      ∈ [mkAnthropicArticle AnthropicFeedType.research sampleUndatedEntry none] := by
  exact undated_retention_policy.2.1 sampleAnthFeeds 0
    [mkAnthropicArticle AnthropicFeedType.research sampleUndatedEntry none] sampleUndatedEntry
    (by decide) (by decide) rfl
